import Mathlib

/-!
Verification of the sequencer/trigger engine of `src/components/MelodySculptorGame.js`
(the "Melody Sculptor" spatial sequencer).

Shallow embedding notes:
* Playhead position is `refs.wandGroup.position.x`; it starts at `-planeSize / 2`
  and advances by `0.5` per animation frame while the play button is in the
  `stop` (i.e. currently-playing) state.
* A node's `highlight` models the normalized deviation of its material's
  emissive color from `userData.originalEmissive`: `0` means the emissive is at
  its original value, `1` means it was just flashed to white by a trigger.
  The source's `emissive.lerp(originalColor, 0.1)` moves each color component by
  a tenth of its distance to the original, i.e. the deviation is multiplied by
  `0.9`; that scalar law is what we embed, with the source's guard
  `emissive.getHex() !== originalEmissive` becoming `highlight ≠ 0`.
* A node's `scaleImpulse` models `node.scale.x` (the scale is always uniform in
  the source: it is only ever `set(1.2,1.2,1.2)` or lerped toward `(1,1,1)`).
* The per-frame rotation of synth/pluck meshes (`rotation.y += 0.01`) and the
  actual WebGL rendering are pure presentation and are not part of any claim;
  they are omitted from the state.
* Machine floats are embedded as exact rationals.
-/

namespace MelodySculptor

/-- The three instrument tags `'synth'`, `'pluck'`, `'kick'` used in the source. -/
inductive InstrumentType : Type
  | synth
  | pluck
  | kick
  deriving DecidableEq, Repr

/-- A placed sound node: the engine-relevant fields of a mesh pushed onto
`refs.soundNodes` (`userData.type`, `position.x`, `userData.hasBeenTriggered`,
and the visual state abstracted as `highlight`/`scaleImpulse`, see the header). -/
structure Node : Type where
  type : InstrumentType
  posX : ℚ
  triggered : Bool
  highlight : ℚ
  scaleImpulse : ℚ
  deriving DecidableEq, Repr

instance : Inhabited Node := ⟨⟨.synth, 0, false, 0, 1⟩⟩

/-- The engine state touched by one `animate` frame: the node registry
`refs.soundNodes` and the playhead position `refs.wandGroup.position.x`. -/
structure EngineState : Type where
  soundNodes : List Node
  wandX : ℚ
  deriving DecidableEq, Repr

/-- `const planeSize = 200` (line 292; also line 149). -/
def planeSize : ℚ := 200

/-- Wrap threshold `planeSize / 2` (line 295). -/
def boundsMax : ℚ := planeSize / 2

/-- Playhead start / wrap target `-planeSize / 2` (lines 187 and 296). -/
def boundsMin : ℚ := -(planeSize / 2)

/-- Per-frame playhead advance `0.5` (line 293). -/
def velocityPerTick : ℚ := 1 / 2

/-- Trigger distance window `1.0` (line 301). -/
def tolerance : ℚ := 1

/-- Proximity test `Math.abs(node.position.x - wandGroup.position.x) < 1.0`
(line 301), as a function of the playhead position and the node's x. -/
def near (pos x : ℚ) : Bool := decide (|x - pos| < tolerance)

/-- Full guard of the trigger branch (line 301):
`!node.userData.hasBeenTriggered && Math.abs(node.position.x - wand.x) < 1.0`. -/
def fires (pos : ℚ) (n : Node) : Bool := !n.triggered && near pos n.posX

/-- Visual decay applied to every node each frame (lines 282-288): lerp the
emissive back toward its original color when it differs from it, and for kick
nodes with `scale.x > 1` lerp the scale back toward `(1,1,1)`, both by factor
`0.1`. -/
def decayNode (n : Node) : Node :=
  { n with
    highlight :=
      if n.highlight ≠ 0 then n.highlight + (0 - n.highlight) * (1 / 10)
      else n.highlight,
    scaleImpulse :=
      if n.type = .kick ∧ 1 < n.scaleImpulse then
        n.scaleImpulse + (1 - n.scaleImpulse) * (1 / 10)
      else n.scaleImpulse }

/-- Mutations performed on a node by the trigger branch (lines 302-304):
`hasBeenTriggered = true`, `emissive.set(0xffffff)` (maximal deviation, i.e.
`highlight = 1`), and for kick nodes `scale.set(1.2, 1.2, 1.2)`. -/
def triggerNode (n : Node) : Node :=
  { n with
    triggered := true,
    highlight := 1,
    scaleImpulse := if n.type = .kick then 6 / 5 else n.scaleImpulse }

/-- One node's view of the detection pass (lines 300-307): trigger it exactly
when the guard `fires` holds, otherwise leave it alone. -/
def detectStep (pos : ℚ) (n : Node) : Node :=
  if fires pos n then triggerNode n else n

/-- Decoded audio data stored in `refs.soundBuffers`; contents are opaque to
the engine. -/
abbrev AudioBuffer := Unit

/-- A sound bank: `refs.soundBuffers` viewed as a map from instrument tag to an
optionally-present decoded buffer (entries appear asynchronously and may never
appear at all). -/
abbrev SoundBank := InstrumentType → Option AudioBuffer

/-- The function `playSound(buffer)` (lines 252-259): when the buffer is absent
(`if (!buffer) return`) nothing happens; when present a one-shot playback is
started. The returned boolean records whether a playback was dispatched. -/
def playSound (buffer : Option AudioBuffer) : Bool :=
  match buffer with
  | none => false
  | some _ => true

/-- One invocation of the animation callback `animate` (lines 261-311),
restricted to the engine state (see the header for what is abstracted away).
`running` is `isGamePlaying` (line 278, read from the play/stop button).
The second component is the list of instrument types for which `playSound`
actually started a playback this frame, in registry order. In the source the
detection `forEach` mutates each firing node and calls `playSound` in one pass;
since the guard of each node only reads that same node and the shared playhead
position, the pass is expressed as one map for the node updates plus one
filter for the dispatched sounds. -/
def tick (bank : SoundBank) (running : Bool) (s : EngineState) :
    EngineState × List InstrumentType :=
  let nodes1 := s.soundNodes.map decayNode
  if running then
    let x1 := s.wandX + velocityPerTick
    let x2 := if x1 > boundsMax then boundsMin else x1
    let nodes2 :=
      if x1 > boundsMax then nodes1.map (fun n => { n with triggered := false })
      else nodes1
    let played :=
      ((nodes2.filter (fires x2)).map Node.type).filter fun u => playSound (bank u)
    let nodes3 := nodes2.map (detectStep x2)
    ({ soundNodes := nodes3, wandX := x2 }, played)
  else
    ({ soundNodes := nodes1, wandX := s.wandX }, [])

/-- Phase: the unconditional visual-decay pass (lines 280-289). -/
def decayAll (s : EngineState) : EngineState :=
  { s with soundNodes := s.soundNodes.map decayNode }

/-- Phase: the playhead advance `wandGroup.position.x += 0.5` (line 293). -/
def advance (s : EngineState) : EngineState :=
  { s with wandX := s.wandX + velocityPerTick }

/-- Phase: the wrap check (lines 295-298): when the position exceeds
`planeSize / 2`, reset it to `-planeSize / 2` and clear every node's
`hasBeenTriggered` flag. -/
def wrapStep (s : EngineState) : EngineState :=
  if s.wandX > boundsMax then
    { soundNodes := s.soundNodes.map (fun n => { n with triggered := false }),
      wandX := boundsMin }
  else s

/-- Phase: the detection pass (lines 300-307) applied to every node at the
current playhead position. -/
def detectAll (s : EngineState) : EngineState :=
  { s with soundNodes := s.soundNodes.map (detectStep s.wandX) }

/-- Types of the nodes whose trigger guard holds at the current playhead
position, in registry order: the trigger events of this frame. -/
def triggerEvents (s : EngineState) : List InstrumentType :=
  (s.soundNodes.filter (fires s.wandX)).map Node.type

/-- The per-frame pipeline written as a composition of the named phases, in
the order the source actually executes them: visual decay first, then (only
while running) playhead advance, wrap check, and detection with dispatch. -/
def tickDecayFirst (bank : SoundBank) (running : Bool) (s : EngineState) :
    EngineState × List InstrumentType :=
  let sd := decayAll s
  if running then
    let sw := wrapStep (advance sd)
    (detectAll sw, (triggerEvents sw).filter fun u => playSound (bank u))
  else (sd, [])

/-- The per-frame pipeline in the order claimed by the spec (section 5):
playhead advance, wrap check, detection and dispatch, and visual decay LAST.
This definition follows the spec's words, for comparison with `tick`; it is
not a translation of the source. -/
def tickSpecOrder (bank : SoundBank) (running : Bool) (s : EngineState) :
    EngineState × List InstrumentType :=
  if running then
    let sw := wrapStep (advance s)
    (decayAll (detectAll sw), (triggerEvents sw).filter fun u => playSound (bank u))
  else (decayAll s, [])

/-- Iterated running frames: `runTicks bank k s` is the state after `k`
consecutive `animate` frames with the sequencer playing. -/
def runTicks (bank : SoundBank) : ℕ → EngineState → EngineState
  | 0, s => s
  | k + 1, s => (tick bank true (runTicks bank k s)).1

/-- The node at registry index `i` (a default node when out of range; all uses
in the development stay in range). -/
def nodeAt (s : EngineState) (i : ℕ) : Node := s.soundNodes.getD i default

/-- The node built by `placeInstrument` for a given instrument tag (lines
228-246): the `switch (currentType)` has cases for exactly `'synth'`,
`'pluck'` and `'kick'` and no default, so for any other tag `newNode` stays
`undefined` and the very next line `newNode.position.copy(position)` throws a
`TypeError`; that failure is `none` here. On success the mesh starts with
scale `(1,1,1)`, emissive at its `originalEmissive` (zero deviation) and
`hasBeenTriggered = false`. -/
def mkNode (currentType : String) (posX : ℚ) : Option Node :=
  if currentType = "synth" then some ⟨.synth, posX, false, 0, 1⟩
  else if currentType = "pluck" then some ⟨.pluck, posX, false, 0, 1⟩
  else if currentType = "kick" then some ⟨.kick, posX, false, 0, 1⟩
  else none

/-- The function `placeInstrument(position)` (lines 219-250) viewed on the
engine state: build the node for the current instrument tag and append it to
`refs.soundNodes`; an unrecognized tag throws before any append happens
(modelled as an error result). -/
def placeInstrument (s : EngineState) (currentType : String) (posX : ℚ) :
    Except String EngineState :=
  match mkNode currentType posX with
  | some n => .ok { s with soundNodes := s.soundNodes ++ [n] }
  | none => .error "TypeError: cannot read properties of undefined"

/-- The instrument-tag selection at the top of `placeInstrument` (lines
223-226): start from `'synth'`, overwrite with `'pluck'` when the pluck button
has the `active` class, then overwrite with `'kick'` when the kick button has
it. The synth button's own state is never consulted. -/
def selectedType (pluckActive kickActive : Bool) : String :=
  let t0 := "synth"
  let t1 := if pluckActive then "pluck" else t0
  if kickActive then "kick" else t1

/-- Playhead position after `t` running frames from `boundsMin`, while no wrap
has occurred: `boundsMin + t * velocityPerTick`. -/
def sweepPos (t : ℕ) : ℚ := boundsMin + t * velocityPerTick

/-- Whether a node at x-coordinate `x`, untriggered at the start of a sweep
from `boundsMin`, has been triggered by the end of frame `t` of that sweep. -/
def trigAt (x : ℚ) : ℕ → Bool
  | 0 => false
  | t + 1 => trigAt x t || near (sweepPos (t + 1)) x

/-- An empty sound bank: no buffer has been decoded (yet). -/
def bank0 : SoundBank := fun _ => none

/-- The three nodes of the scenario in spec section 8: a synth at `x = -50`, a
pluck at `x = 0`, a kick at `x = 50`, all freshly placed. -/
def scenarioNodes : List Node :=
  [⟨.synth, -50, false, 0, 1⟩, ⟨.pluck, 0, false, 0, 1⟩, ⟨.kick, 50, false, 0, 1⟩]

/-- Scenario start state: the three nodes with the playhead at `boundsMin`. -/
def s6 : EngineState := ⟨scenarioNodes, boundsMin⟩

/-- A one-node state used to separate the source's frame order from the order
claimed by the spec: the node sits at `x = 0` and the playhead will advance
onto it this frame. -/
def sC3 : EngineState := ⟨[⟨.synth, 0, false, 0, 1⟩], -(1 / 2)⟩

section Lemmas

lemma boundsMax_eq : boundsMax = 100 := by norm_num [boundsMax, planeSize]

lemma boundsMin_eq : boundsMin = -100 := by norm_num [boundsMin, planeSize]

lemma velocityPerTick_eq : velocityPerTick = 1 / 2 := rfl

lemma near_iff (p x : ℚ) : near p x = true ↔ |x - p| < tolerance := by
  simp [near]

lemma decayNode_type (n : Node) : (decayNode n).type = n.type := rfl

lemma decayNode_posX (n : Node) : (decayNode n).posX = n.posX := rfl

lemma decayNode_triggered (n : Node) : (decayNode n).triggered = n.triggered := rfl

lemma decayNode_highlight (n : Node) :
    (decayNode n).highlight = 9 / 10 * n.highlight := by
  by_cases h : n.highlight = 0
  · simp [decayNode, h]
  · simp only [decayNode, if_pos h]
    ring

lemma decayNode_scaleImpulse (n : Node) (hs : 1 ≤ n.scaleImpulse)
    (hnk : n.type ≠ .kick → n.scaleImpulse = 1) :
    (decayNode n).scaleImpulse = 1 + 9 / 10 * (n.scaleImpulse - 1) := by
  by_cases hk : n.type = .kick
  · by_cases h1 : 1 < n.scaleImpulse
    · simp only [decayNode, if_pos (And.intro hk h1)]
      ring
    · have he : n.scaleImpulse = 1 := le_antisymm (not_lt.1 h1) hs
      simp [decayNode, he]
  · have he := hnk hk
    simp [decayNode, he, hk]

lemma triggerNode_type (n : Node) : (triggerNode n).type = n.type := rfl

lemma triggerNode_posX (n : Node) : (triggerNode n).posX = n.posX := rfl

lemma detectStep_type (p : ℚ) (n : Node) : (detectStep p n).type = n.type := by
  by_cases h : fires p n <;> simp [detectStep, h, triggerNode]

lemma detectStep_posX (p : ℚ) (n : Node) : (detectStep p n).posX = n.posX := by
  by_cases h : fires p n <;> simp [detectStep, h, triggerNode]

lemma detectStep_triggered (p : ℚ) (n : Node) :
    (detectStep p n).triggered = (n.triggered || near p n.posX) := by
  by_cases ht : n.triggered
  · simp [detectStep, fires, ht, triggerNode]
  · by_cases hn : near p n.posX
    · simp [detectStep, fires, ht, hn, triggerNode]
    · simp [detectStep, fires, ht, hn]

lemma detectStep_of_triggered (p : ℚ) (n : Node) (h : n.triggered = true) :
    detectStep p n = n := by
  simp [detectStep, fires, h]

lemma detectStep_of_fires (p : ℚ) (n : Node) (h : fires p n = true) :
    detectStep p n = triggerNode n := by
  simp [detectStep, h]

lemma detectStep_of_not_fires (p : ℚ) (n : Node) (h : fires p n = false) :
    detectStep p n = n := by
  simp [detectStep, h]

lemma getD_map_of_lt (f : Node → Node) (l : List Node) (i : ℕ)
    (hi : i < l.length) :
    (l.map f).getD i default = f (l.getD i default) := by
  induction l generalizing i with
  | nil => exact absurd hi (Nat.not_lt_zero i)
  | cons a l ih =>
      cases i with
      | zero => rfl
      | succ j => exact ih j (Nat.lt_of_succ_lt_succ hi)

lemma getD_mem_of_lt (l : List Node) (i : ℕ) (hi : i < l.length) :
    l.getD i default ∈ l := by
  induction l generalizing i with
  | nil => exact absurd hi (Nat.not_lt_zero i)
  | cons a l ih =>
      cases i with
      | zero => exact List.mem_cons_self a l
      | succ j => exact List.mem_cons_of_mem a (ih j (Nat.lt_of_succ_lt_succ hi))

/-- The source's frame body equals the phase pipeline with decay first. -/
lemma tick_eq_decayFirst (bank : SoundBank) (running : Bool) (s : EngineState) :
    tick bank running s = tickDecayFirst bank running s := by
  cases running with
  | false => rfl
  | true =>
      show tick bank true s = tickDecayFirst bank true s
      simp only [tick, tickDecayFirst, decayAll, advance, wrapStep, detectAll,
        triggerEvents]
      by_cases h : s.wandX + velocityPerTick > boundsMax
      · simp [h]
      · simp [h]

lemma tick_false_fst (bank : SoundBank) (s : EngineState) :
    (tick bank false s).1 = { s with soundNodes := s.soundNodes.map decayNode } := rfl

lemma tick_false_snd (bank : SoundBank) (s : EngineState) :
    (tick bank false s).2 = [] := rfl

lemma tick_true_fst (bank : SoundBank) (s : EngineState) :
    (tick bank true s).1 = detectAll (wrapStep (advance (decayAll s))) := by
  rw [tick_eq_decayFirst]
  rfl

lemma tick_fst_bank_irrel (bank bank2 : SoundBank) (running : Bool)
    (s : EngineState) : (tick bank running s).1 = (tick bank2 running s).1 := by
  cases running <;> rfl

lemma wrapStep_of_not_gt (s : EngineState) (h : ¬ s.wandX > boundsMax) :
    wrapStep s = s := by
  simp [wrapStep, h]

lemma wrapStep_of_gt (s : EngineState) (h : s.wandX > boundsMax) :
    wrapStep s =
      { soundNodes := s.soundNodes.map (fun n => { n with triggered := false }),
        wandX := boundsMin } := by
  simp [wrapStep, h]

lemma tick_true_wandX_of_not_gt (bank : SoundBank) (s : EngineState)
    (h : ¬ s.wandX + velocityPerTick > boundsMax) :
    (tick bank true s).1.wandX = s.wandX + velocityPerTick := by
  rw [tick_true_fst]
  have ha : (advance (decayAll s)).wandX = s.wandX + velocityPerTick := rfl
  rw [show wrapStep (advance (decayAll s)) = advance (decayAll s) from
    wrapStep_of_not_gt _ (by rw [ha]; exact h)]
  rfl

lemma tick_true_length (bank : SoundBank) (s : EngineState) :
    (tick bank true s).1.soundNodes.length = s.soundNodes.length := by
  rw [tick_true_fst]
  by_cases h : (advance (decayAll s)).wandX > boundsMax
  · rw [wrapStep_of_gt _ h]
    simp [detectAll, decayAll, advance]
  · rw [wrapStep_of_not_gt _ h]
    simp [detectAll, decayAll, advance]

lemma tick_true_nodeAt_of_not_gt (bank : SoundBank) (s : EngineState) (i : ℕ)
    (hi : i < s.soundNodes.length)
    (h : ¬ s.wandX + velocityPerTick > boundsMax) :
    nodeAt (tick bank true s).1 i =
      detectStep (s.wandX + velocityPerTick) (decayNode (nodeAt s i)) := by
  rw [tick_true_fst]
  have ha : (advance (decayAll s)).wandX = s.wandX + velocityPerTick := rfl
  rw [show wrapStep (advance (decayAll s)) = advance (decayAll s) from
    wrapStep_of_not_gt _ (by rw [ha]; exact h)]
  show ((s.soundNodes.map decayNode).map
      (detectStep (s.wandX + velocityPerTick))).getD i default =
    detectStep (s.wandX + velocityPerTick) (decayNode (s.soundNodes.getD i default))
  rw [getD_map_of_lt _ _ i (by simpa using hi), getD_map_of_lt _ _ i hi]

lemma tick_true_nodeAt_of_gt (bank : SoundBank) (s : EngineState) (i : ℕ)
    (hi : i < s.soundNodes.length)
    (h : s.wandX + velocityPerTick > boundsMax) :
    nodeAt (tick bank true s).1 i =
      detectStep boundsMin { decayNode (nodeAt s i) with triggered := false } := by
  rw [tick_true_fst]
  have ha : (advance (decayAll s)).wandX = s.wandX + velocityPerTick := rfl
  rw [wrapStep_of_gt _ (by rw [ha]; exact h)]
  show (((s.soundNodes.map decayNode).map (fun n => { n with triggered := false })).map
      (detectStep boundsMin)).getD i default =
    detectStep boundsMin { decayNode (s.soundNodes.getD i default) with triggered := false }
  rw [getD_map_of_lt _ _ i (by simpa using hi), getD_map_of_lt _ _ i (by simpa using hi),
    getD_map_of_lt _ _ i hi]

/-- A concrete state for witnesses: one already-triggered node at `x = 0` with
a lit highlight, playhead at `x = 100` (so the next running frame wraps). -/
def sW : EngineState := ⟨[⟨.synth, 0, true, 1, 1⟩], 100⟩

/-- A fully populated sound bank: every instrument's buffer has been decoded. -/
def bankFull : SoundBank := fun _ => some ()

end Lemmas

section IterLemmas

lemma decayIter_type (n : Node) (k : ℕ) : (decayNode^[k] n).type = n.type := by
  induction k with
  | zero => rfl
  | succ k ih => rw [Function.iterate_succ_apply', decayNode_type, ih]

lemma decayIter_highlight (n : Node) (k : ℕ) :
    (decayNode^[k] n).highlight = (9 / 10) ^ k * n.highlight := by
  induction k with
  | zero => simp
  | succ k ih =>
      rw [Function.iterate_succ_apply', decayNode_highlight, ih]
      ring

lemma decayIter_scaleImpulse (n : Node) (hs : 1 ≤ n.scaleImpulse)
    (hnk : n.type ≠ .kick → n.scaleImpulse = 1) (k : ℕ) :
    (decayNode^[k] n).scaleImpulse = 1 + (9 / 10) ^ k * (n.scaleImpulse - 1) := by
  induction k with
  | zero => simp
  | succ k ih =>
      have hpow : (0 : ℚ) ≤ (9 / 10) ^ k * (n.scaleImpulse - 1) :=
        mul_nonneg (pow_nonneg (by norm_num) k) (by linarith)
      rw [Function.iterate_succ_apply',
        decayNode_scaleImpulse _ (by rw [ih]; linarith) ?_, ih]
      · ring
      · intro hne
        rw [decayIter_type n k] at hne
        rw [ih, hnk hne]
        ring

lemma wrapStep_length (s : EngineState) :
    (wrapStep s).soundNodes.length = s.soundNodes.length := by
  by_cases h : s.wandX > boundsMax
  · rw [wrapStep_of_gt _ h]
    simp
  · rw [wrapStep_of_not_gt _ h]

lemma nodeAt_wrapStep_visuals (s : EngineState) (i : ℕ)
    (hi : i < s.soundNodes.length) :
    (nodeAt (wrapStep (advance (decayAll s))) i).highlight
        = (decayNode (nodeAt s i)).highlight ∧
    (nodeAt (wrapStep (advance (decayAll s))) i).scaleImpulse
        = (decayNode (nodeAt s i)).scaleImpulse := by
  have hadv : (advance (decayAll s)).soundNodes = s.soundNodes.map decayNode := rfl
  by_cases h : (advance (decayAll s)).wandX > boundsMax
  · have h1 : nodeAt (wrapStep (advance (decayAll s))) i
        = { decayNode (nodeAt s i) with triggered := false } := by
      rw [wrapStep_of_gt _ h]
      simp only [nodeAt, hadv]
      rw [getD_map_of_lt _ _ i (by simpa using hi), getD_map_of_lt _ _ i hi]
    rw [h1]
    exact ⟨rfl, rfl⟩
  · have h1 : nodeAt (wrapStep (advance (decayAll s))) i
        = decayNode (nodeAt s i) := by
      rw [wrapStep_of_not_gt _ h]
      simp only [nodeAt, hadv]
      rw [getD_map_of_lt _ _ i hi]
    rw [h1]
    exact ⟨rfl, rfl⟩

end IterLemmas

/-- C4: in a running, non-wrapping frame, an untriggered node triggers exactly
when its distance to the advanced playhead position is below the tolerance;
triggering sets its highlight to 1.0 and, for a kick node, its scale impulse to
1.2 (= 6/5); a node already triggered this sweep is left exactly as the decay
pass put it — it is never re-triggered. -/
theorem trigger_detection_rule (bank : SoundBank) (s : EngineState) (i : ℕ)
    (hi : i < s.soundNodes.length)
    (hw : ¬ s.wandX + velocityPerTick > boundsMax) :
    ((nodeAt s i).triggered = false →
       (((nodeAt (tick bank true s).1 i).triggered = true ↔
           |(nodeAt s i).posX - (s.wandX + velocityPerTick)| < tolerance) ∧
        (|(nodeAt s i).posX - (s.wandX + velocityPerTick)| < tolerance →
           (nodeAt (tick bank true s).1 i).highlight = 1 ∧
           ((nodeAt s i).type = .kick →
              (nodeAt (tick bank true s).1 i).scaleImpulse = 6 / 5)))) ∧
    ((nodeAt s i).triggered = true →
       nodeAt (tick bank true s).1 i = decayNode (nodeAt s i)) := by
  have hn := tick_true_nodeAt_of_not_gt bank s i hi hw
  constructor
  · intro ht
    constructor
    · rw [hn, detectStep_triggered, decayNode_triggered, decayNode_posX, ht]
      simp [near_iff]
    · intro hd
      have hf : fires (s.wandX + velocityPerTick) (decayNode (nodeAt s i)) = true := by
        simp only [fires, decayNode_triggered, decayNode_posX, ht]
        simpa [near_iff] using hd
      rw [hn, detectStep_of_fires _ _ hf]
      refine ⟨rfl, fun hk => ?_⟩
      simp [triggerNode, decayNode_type, hk]
  · intro ht
    rw [hn, detectStep_of_triggered _ _ (by rw [decayNode_triggered]; exact ht)]

/-- A one-node state for the detection witness: an untriggered kick at `x = 0`
with the playhead about to advance onto it. -/
def sC4 : EngineState := ⟨[⟨.kick, 0, false, 0, 1⟩], -(1 / 2)⟩

/-- Witness for `trigger_detection_rule` on the state `sC4` at index 0. -/
theorem trigger_detection_rule_witness :
    0 < sC4.soundNodes.length ∧
    ¬ sC4.wandX + velocityPerTick > boundsMax ∧
    (((nodeAt sC4 0).triggered = false →
       (((nodeAt (tick bank0 true sC4).1 0).triggered = true ↔
           |(nodeAt sC4 0).posX - (sC4.wandX + velocityPerTick)| < tolerance) ∧
        (|(nodeAt sC4 0).posX - (sC4.wandX + velocityPerTick)| < tolerance →
           (nodeAt (tick bank0 true sC4).1 0).highlight = 1 ∧
           ((nodeAt sC4 0).type = .kick →
              (nodeAt (tick bank0 true sC4).1 0).scaleImpulse = 6 / 5)))) ∧
     ((nodeAt sC4 0).triggered = true →
        nodeAt (tick bank0 true sC4).1 0 = decayNode (nodeAt sC4 0))) :=
  ⟨by decide, by with_unfolding_all decide,
   trigger_detection_rule bank0 sC4 0 (by decide) (by with_unfolding_all decide)⟩

/-- C5: visual decay follows the geometric law — after `k` decay passes a
node's highlight is `0.9^k` times its starting highlight, and its scale
impulse is `1 + 0.9^k * (scaleImpulse - 1)`, i.e. decays by the same law
toward baseline 1.0 (under the invariants every reachable node satisfies:
scale at least 1, and exactly 1 for non-kick nodes); moreover the decay pass
runs on every frame: a stopped frame maps every node through `decayNode`, and
in a running frame a node whose trigger guard does not fire keeps exactly its
decayed visual values. -/
theorem visual_decay_law (n : Node) (k : ℕ) (bank : SoundBank)
    (s : EngineState) (i : ℕ)
    (hs : 1 ≤ n.scaleImpulse) (hnk : n.type ≠ .kick → n.scaleImpulse = 1)
    (hi : i < s.soundNodes.length)
    (hnf : fires (wrapStep (advance (decayAll s))).wandX
        (nodeAt (wrapStep (advance (decayAll s))) i) = false) :
    (decayNode^[k] n).highlight = (9 / 10) ^ k * n.highlight ∧
    (decayNode^[k] n).scaleImpulse = 1 + (9 / 10) ^ k * (n.scaleImpulse - 1) ∧
    (tick bank false s).1.soundNodes = s.soundNodes.map decayNode ∧
    (nodeAt (tick bank true s).1 i).highlight
        = (decayNode (nodeAt s i)).highlight ∧
    (nodeAt (tick bank true s).1 i).scaleImpulse
        = (decayNode (nodeAt s i)).scaleImpulse := by
  have hlen : i < (wrapStep (advance (decayAll s))).soundNodes.length := by
    rw [wrapStep_length]
    simpa [advance, decayAll] using hi
  have hdet : nodeAt (tick bank true s).1 i
      = nodeAt (wrapStep (advance (decayAll s))) i := by
    rw [tick_true_fst]
    show ((wrapStep (advance (decayAll s))).soundNodes.map
        (detectStep (wrapStep (advance (decayAll s))).wandX)).getD i default = _
    rw [getD_map_of_lt _ _ i hlen]
    exact detectStep_of_not_fires _ _ hnf
  obtain ⟨hv1, hv2⟩ := nodeAt_wrapStep_visuals s i hi
  exact ⟨decayIter_highlight n k, decayIter_scaleImpulse n hs hnk k, rfl,
    by rw [hdet]; exact hv1, by rw [hdet]; exact hv2⟩

/-- Witness for `visual_decay_law`: a freshly-triggered kick node (highlight 1,
scale 6/5) decayed three times, on the wrap-ready state `sW` whose single node
is far from the post-wrap playhead position. -/
theorem visual_decay_law_witness :
    1 ≤ (Node.mk .kick 0 false 1 (6 / 5)).scaleImpulse ∧
    ((Node.mk .kick 0 false 1 (6 / 5)).type ≠ .kick →
      (Node.mk .kick 0 false 1 (6 / 5)).scaleImpulse = 1) ∧
    0 < sW.soundNodes.length ∧
    fires (wrapStep (advance (decayAll sW))).wandX
        (nodeAt (wrapStep (advance (decayAll sW))) 0) = false ∧
    ((decayNode^[3] (Node.mk .kick 0 false 1 (6 / 5))).highlight
        = (9 / 10) ^ 3 * (Node.mk .kick 0 false 1 (6 / 5)).highlight ∧
     (decayNode^[3] (Node.mk .kick 0 false 1 (6 / 5))).scaleImpulse
        = 1 + (9 / 10) ^ 3 * ((Node.mk .kick 0 false 1 (6 / 5)).scaleImpulse - 1) ∧
     (tick bank0 false sW).1.soundNodes = sW.soundNodes.map decayNode ∧
     (nodeAt (tick bank0 true sW).1 0).highlight
        = (decayNode (nodeAt sW 0)).highlight ∧
     (nodeAt (tick bank0 true sW).1 0).scaleImpulse
        = (decayNode (nodeAt sW 0)).scaleImpulse) :=
  ⟨by with_unfolding_all decide, by decide, by decide,
   by with_unfolding_all decide,
   visual_decay_law (Node.mk .kick 0 false 1 (6 / 5)) 3 bank0 sW 0
     (by with_unfolding_all decide) (by decide) (by decide)
     (by with_unfolding_all decide)⟩

/-- C2: while running, a frame whose advanced position exceeds `bounds.max`
resets the position to `bounds.min` and clears every node's triggered flag, and
this wrapped state is the one the frame's trigger detection runs on: no node is
observed triggered immediately after the wrap, before detection. -/
theorem wrap_resets_flags_before_detection (bank : SoundBank) (s : EngineState)
    (h : boundsMax < s.wandX + velocityPerTick) :
    (advance (decayAll s)).wandX = s.wandX + velocityPerTick ∧
    (wrapStep (advance (decayAll s))).wandX = boundsMin ∧
    (∀ n ∈ (wrapStep (advance (decayAll s))).soundNodes, n.triggered = false) ∧
    (tick bank true s).1 = detectAll (wrapStep (advance (decayAll s))) := by
  have ha : (advance (decayAll s)).wandX = s.wandX + velocityPerTick := rfl
  have hw := wrapStep_of_gt (advance (decayAll s)) (by rw [ha]; exact h)
  refine ⟨rfl, ?_, ?_, tick_true_fst bank s⟩
  · rw [hw]
  · rw [hw]
    intro n hn
    obtain ⟨m, _, rfl⟩ := List.mem_map.1 hn
    rfl

/-- Witness for `wrap_resets_flags_before_detection` at the concrete state
`sW` (playhead at 100, one triggered node). -/
theorem wrap_resets_flags_before_detection_witness :
    boundsMax < sW.wandX + velocityPerTick ∧
    ((advance (decayAll sW)).wandX = sW.wandX + velocityPerTick ∧
     (wrapStep (advance (decayAll sW))).wandX = boundsMin ∧
     (∀ n ∈ (wrapStep (advance (decayAll sW))).soundNodes, n.triggered = false) ∧
     (tick bank0 true sW).1 = detectAll (wrapStep (advance (decayAll sW)))) :=
  ⟨by with_unfolding_all decide,
   wrap_resets_flags_before_detection bank0 sW (by with_unfolding_all decide)⟩

/-- C3, counterexample: the spec's claimed per-frame order (decay last, after
detection) disagrees with the source's frame on a concrete state in which a
node triggers: the source leaves its highlight at `1.0`, the spec's order
would decay it to `0.9` in the same frame. -/
theorem tick_spec_order_refuted :
    tick bank0 true sC3 ≠ tickSpecOrder bank0 true sC3 := by
  with_unfolding_all decide

/-- C3, amended: per frame the engine first runs the visual decay for all
nodes, and only then (while running) the playhead advance, the wrap check with
flag reset, and trigger detection with audio dispatch and visual impulse
applied together; detection thus still runs after the wrap reset, but the
decay pass precedes the playhead advance instead of following detection. -/
theorem tick_decay_runs_first (bank : SoundBank) (running : Bool)
    (s : EngineState) : tick bank running s = tickDecayFirst bank running s :=
  tick_eq_decayFirst bank running s

/-- C7: a stopped frame leaves the playhead position and every triggered flag
unchanged, dispatches nothing, and still applies the per-frame visual decay to
every node (which itself preserves flags and positions and shrinks the
highlight by the factor 0.9). -/
theorem stop_freezes_state_decay_continues (bank : SoundBank)
    (s : EngineState) :
    (tick bank false s).1.wandX = s.wandX ∧
    (tick bank false s).2 = [] ∧
    (tick bank false s).1.soundNodes = s.soundNodes.map decayNode ∧
    ∀ n : Node, (decayNode n).triggered = n.triggered ∧
      (decayNode n).highlight = 9 / 10 * n.highlight ∧
      (decayNode n).posX = n.posX :=
  ⟨rfl, rfl, rfl, fun n => ⟨rfl, decayNode_highlight n, rfl⟩⟩

/-- C8: when an instrument's sound-bank entry is absent, the frame's engine
state is exactly what it would be under any other bank (the dispatch modifies
no engine state and raises no error), and no playback for that instrument is
dispatched; triggered flags therefore flip on trigger and clear on wrap
exactly as when the entry is present. -/
theorem absent_buffer_silent_noop (bank bank2 : SoundBank)
    (t : InstrumentType) (running : Bool) (s : EngineState)
    (h : bank t = none) :
    (tick bank running s).1 = (tick bank2 running s).1 ∧
    (tick bank running s).2.count t = 0 := by
  refine ⟨tick_fst_bank_irrel bank bank2 running s, ?_⟩
  cases running with
  | false => rfl
  | true =>
      rw [tick_eq_decayFirst]
      rw [List.count_eq_zero]
      intro hmem
      have hf := (List.mem_filter.1 hmem).2
      rw [h] at hf
      exact Bool.noConfusion hf

/-- Witness for `absent_buffer_silent_noop`: the empty bank against the full
bank, for the kick instrument, on the wrap-ready state `sW`. -/
theorem absent_buffer_silent_noop_witness :
    bank0 InstrumentType.kick = none ∧
    ((tick bank0 true sW).1 = (tick bankFull true sW).1 ∧
     (tick bank0 true sW).2.count InstrumentType.kick = 0) :=
  ⟨rfl, absent_buffer_silent_noop bank0 bankFull InstrumentType.kick true sW rfl⟩

/-- C9: a placement request whose instrument tag is not one of the three
recognized values fails with an error and appends nothing (in the source the
fall-through `switch` leaves `newNode` undefined and the next line throws
before the registry push), while every recognized tag appends exactly one
node with `triggered = false`, `highlight = 0` and `scaleImpulse = 1`. -/
theorem placement_fail_fast (s : EngineState) (ct : String) (x : ℚ)
    (h1 : ct ≠ "synth") (h2 : ct ≠ "pluck") (h3 : ct ≠ "kick") :
    placeInstrument s ct x =
      .error "TypeError: cannot read properties of undefined" ∧
    ∀ ct2 : String, ct2 = "synth" ∨ ct2 = "pluck" ∨ ct2 = "kick" →
      ∃ n : Node, placeInstrument s ct2 x =
          .ok { s with soundNodes := s.soundNodes ++ [n] } ∧
        n.triggered = false ∧ n.highlight = 0 ∧ n.scaleImpulse = 1 := by
  constructor
  · simp [placeInstrument, mkNode, h1, h2, h3]
  · rintro ct2 (rfl | rfl | rfl)
    · exact ⟨⟨.synth, x, false, 0, 1⟩, rfl, rfl, rfl, rfl⟩
    · exact ⟨⟨.pluck, x, false, 0, 1⟩, rfl, rfl, rfl, rfl⟩
    · exact ⟨⟨.kick, x, false, 0, 1⟩, rfl, rfl, rfl, rfl⟩

/-- Witness for `placement_fail_fast` with the unrecognized tag `"drum"`. -/
theorem placement_fail_fast_witness :
    ("drum" : String) ≠ "synth" ∧ ("drum" : String) ≠ "pluck" ∧
    ("drum" : String) ≠ "kick" ∧
    (placeInstrument sW "drum" 5 =
        .error "TypeError: cannot read properties of undefined" ∧
     ∀ ct2 : String, ct2 = "synth" ∨ ct2 = "pluck" ∨ ct2 = "kick" →
       ∃ n : Node, placeInstrument sW ct2 5 =
           .ok { sW with soundNodes := sW.soundNodes ++ [n] } ∧
         n.triggered = false ∧ n.highlight = 0 ∧ n.scaleImpulse = 1) :=
  ⟨by decide, by decide, by decide,
   placement_fail_fast sW "drum" 5 (by decide) (by decide) (by decide)⟩

/-- C10: when neither the pluck nor the kick selector is active, the selected
tag silently defaults to `"synth"` and placement succeeds, appending a synth
node (the placement is not rejected). -/
theorem placement_default_synth (s : EngineState) (x : ℚ) :
    selectedType false false = "synth" ∧
    placeInstrument s (selectedType false false) x =
      .ok { s with soundNodes := s.soundNodes ++ [⟨.synth, x, false, 0, 1⟩] } :=
  ⟨rfl, rfl⟩

section SweepLemmas

lemma runTicks_succ (bank : SoundBank) (k : ℕ) (s : EngineState) :
    runTicks bank (k + 1) s = (tick bank true (runTicks bank k s)).1 := rfl

lemma tolerance_eq : tolerance = 1 := rfl

lemma sweepPos_succ (t : ℕ) : sweepPos (t + 1) = sweepPos t + velocityPerTick := by
  simp only [sweepPos]
  push_cast
  ring

lemma sweepPos_le (t : ℕ) (ht : t ≤ 400) : sweepPos t ≤ boundsMax := by
  have htq : (t : ℚ) ≤ 400 := by exact_mod_cast ht
  rw [sweepPos, boundsMin_eq, velocityPerTick_eq, boundsMax_eq]
  linarith

lemma trigAt_succ (x : ℚ) (t : ℕ) :
    trigAt x (t + 1) = (trigAt x t || near (sweepPos (t + 1)) x) := rfl

lemma trigAt_mono_succ (x : ℚ) (t : ℕ) (h : trigAt x t = true) :
    trigAt x (t + 1) = true := by
  rw [trigAt_succ, h, Bool.true_or]

lemma trigAt_mono (x : ℚ) {a b : ℕ} (hab : a ≤ b) (h : trigAt x a = true) :
    trigAt x b = true := by
  obtain ⟨c, rfl⟩ := Nat.exists_eq_add_of_le hab
  induction c with
  | zero => simpa using h
  | succ c ih => exact trigAt_mono_succ x (a + c) (ih (Nat.le_add_right a c))

lemma trigAt_hit (x : ℚ) (t : ℕ) (h1 : 1 ≤ t)
    (hnear : near (sweepPos t) x = true) : trigAt x t = true := by
  cases t with
  | zero => exact absurd h1 (by omega)
  | succ u => rw [trigAt_succ, hnear, Bool.or_true]

/-- Every x-coordinate inside the sweep bounds is within tolerance of one of
the 400 sampled playhead positions of a sweep. -/
lemma trigAt_covered (x : ℚ) (hmin : boundsMin ≤ x) (hmax : x ≤ boundsMax) :
    trigAt x 400 = true := by
  have hmin' : (-100 : ℚ) ≤ x := by rwa [boundsMin_eq] at hmin
  have hmax' : x ≤ 100 := by rwa [boundsMax_eq] at hmax
  have ha0 : (0 : ℚ) ≤ 2 * x + 200 := by linarith
  have hc0 : 0 ≤ ⌈2 * x + 200⌉ := Int.ceil_nonneg ha0
  have hc400 : ⌈2 * x + 200⌉ ≤ 400 := by
    apply Int.ceil_le.2
    push_cast
    linarith
  have hle : 2 * x + 200 ≤ (⌈2 * x + 200⌉ : ℚ) := Int.le_ceil _
  have hlt : (⌈2 * x + 200⌉ : ℚ) < 2 * x + 200 + 1 := Int.ceil_lt_add_one _
  have ht1 : 1 ≤ max (⌈2 * x + 200⌉).toNat 1 := le_max_right _ _
  have ht400 : max (⌈2 * x + 200⌉).toNat 1 ≤ 400 := by omega
  have hnear : near (sweepPos (max (⌈2 * x + 200⌉).toNat 1)) x = true := by
    rw [near_iff, tolerance_eq, sweepPos, boundsMin_eq, velocityPerTick_eq, abs_lt]
    by_cases hc1 : 1 ≤ ⌈2 * x + 200⌉
    · have htc : max (⌈2 * x + 200⌉).toNat 1 = (⌈2 * x + 200⌉).toNat := by omega
      have htq : ((max (⌈2 * x + 200⌉).toNat 1 : ℕ) : ℚ) = ((⌈2 * x + 200⌉ : ℤ) : ℚ) := by
        rw [htc]
        exact_mod_cast congrArg (fun z : ℤ => (z : ℚ)) (Int.toNat_of_nonneg hc0)
      rw [htq]
      constructor <;> linarith
    · have hcz : ⌈2 * x + 200⌉ = 0 := by omega
      have haz : 2 * x + 200 = 0 := by
        rw [hcz] at hle
        push_cast at hle
        linarith
      have htz : max (⌈2 * x + 200⌉).toNat 1 = 1 := by omega
      rw [htz]
      push_cast
      constructor <;> linarith
  exact trigAt_mono x ht400 (trigAt_hit x _ ht1 hnear)

/-- Trajectory of a sweep started at `boundsMin` with all flags clear: for the
first 400 frames no wrap occurs, the playhead position is `sweepPos t`, nodes
keep their type and position, and each node's triggered flag is exactly
`trigAt` of its x-coordinate. -/
lemma sweep_traj (bank : SoundBank) (nodes : List Node)
    (h0 : ∀ n ∈ nodes, n.triggered = false) :
    ∀ t : ℕ, t ≤ 400 →
      (runTicks bank t ⟨nodes, boundsMin⟩).wandX = sweepPos t ∧
      (runTicks bank t ⟨nodes, boundsMin⟩).soundNodes.length = nodes.length ∧
      ∀ i : ℕ, i < nodes.length →
        (nodeAt (runTicks bank t ⟨nodes, boundsMin⟩) i).type
            = (nodes.getD i default).type ∧
        (nodeAt (runTicks bank t ⟨nodes, boundsMin⟩) i).posX
            = (nodes.getD i default).posX ∧
        (nodeAt (runTicks bank t ⟨nodes, boundsMin⟩) i).triggered
            = trigAt (nodes.getD i default).posX t := by
  intro t
  induction t with
  | zero =>
      intro _
      refine ⟨by simp [runTicks, sweepPos], rfl, fun i hi => ⟨rfl, rfl, ?_⟩⟩
      show (nodes.getD i default).triggered = trigAt _ 0
      rw [h0 _ (getD_mem_of_lt nodes i hi)]
      rfl
  | succ t ih =>
      intro ht
      obtain ⟨hw, hl, hn⟩ := ih (Nat.le_of_succ_le ht)
      have hno : ¬ (runTicks bank t ⟨nodes, boundsMin⟩).wandX + velocityPerTick
          > boundsMax := by
        rw [hw, ← sweepPos_succ]
        exact not_lt.2 (sweepPos_le (t + 1) ht)
      refine ⟨?_, ?_, ?_⟩
      · rw [runTicks_succ, tick_true_wandX_of_not_gt _ _ hno, hw, sweepPos_succ]
      · rw [runTicks_succ, tick_true_length, hl]
      · intro i hi
        have hi' : i < (runTicks bank t ⟨nodes, boundsMin⟩).soundNodes.length := by
          rw [hl]; exact hi
        have heq := tick_true_nodeAt_of_not_gt bank _ i hi' hno
        obtain ⟨hty, hpx, htr⟩ := hn i hi
        rw [runTicks_succ, heq]
        refine ⟨?_, ?_, ?_⟩
        · rw [detectStep_type, decayNode_type, hty]
        · rw [detectStep_posX, decayNode_posX, hpx]
        · rw [detectStep_triggered, decayNode_triggered, decayNode_posX, htr,
            hpx, hw, ← sweepPos_succ, trigAt_succ]

/-- Counting lemma: a boolean trajectory that starts false, is monotone on a
range, and ends true, flips false-to-true exactly once on that range. -/
lemma flip_count_one (f : ℕ → Bool) (N : ℕ) (h0 : f 0 = false)
    (hN : f N = true) (hmono : ∀ t, t < N → f t = true → f (t + 1) = true) :
    ((Finset.range N).filter fun t => f t = false ∧ f (t + 1) = true).card
      = 1 := by
  have hex : ∃ t, f t = true := ⟨N, hN⟩
  have ht0N : Nat.find hex ≤ N := Nat.find_min' hex hN
  have ht0pos : 0 < Nat.find hex := by
    rcases Nat.eq_zero_or_pos (Nat.find hex) with hz | hp
    · have := Nat.find_spec hex
      rw [hz, h0] at this
      exact Bool.noConfusion this
    · exact hp
  have hbelow : ∀ u, u < Nat.find hex → f u = false := by
    intro u hu
    have hne := Nat.find_min hex hu
    cases hfu : f u with
    | false => rfl
    | true => exact absurd hfu hne
  have habove : ∀ u, Nat.find hex ≤ u → u ≤ N → f u = true := by
    intro u hu
    induction u, hu using Nat.le_induction with
    | base => intro _; exact Nat.find_spec hex
    | succ u hu ihu =>
        intro huN
        exact hmono u (by omega) (ihu (by omega))
  have hset : ((Finset.range N).filter fun t => f t = false ∧ f (t + 1) = true)
      = {Nat.find hex - 1} := by
    ext u
    simp only [Finset.mem_filter, Finset.mem_range, Finset.mem_singleton]
    constructor
    · rintro ⟨huN, hfu, hfu1⟩
      have hult : u < Nat.find hex := by
        by_contra hcon
        push_neg at hcon
        rw [habove u hcon (le_of_lt huN)] at hfu
        exact Bool.noConfusion hfu
      have hge : Nat.find hex ≤ u + 1 := by
        by_contra hcon
        push_neg at hcon
        rw [hbelow (u + 1) hcon] at hfu1
        exact Bool.noConfusion hfu1
      omega
    · rintro rfl
      refine ⟨by omega, hbelow _ (by omega), ?_⟩
      have heq : Nat.find hex - 1 + 1 = Nat.find hex := by omega
      rw [heq]
      exact Nat.find_spec hex
  rw [hset, Finset.card_singleton]

end SweepLemmas

/-- C1: over one uninterrupted 400-frame sweep of the running playhead from
`bounds.min` to `bounds.max` (bounds [-100, 100], velocity 0.5 per frame,
tolerance 1.0), every node whose x-coordinate lies within the bounds has its
triggered flag flip from false to true at exactly one frame, whatever the
number and order of the nodes in the registry. -/
theorem sweep_triggers_once (bank : SoundBank) (nodes : List Node)
    (h0 : ∀ n ∈ nodes, n.triggered = false) (i : ℕ) (hi : i < nodes.length)
    (hmin : boundsMin ≤ (nodes.getD i default).posX)
    (hmax : (nodes.getD i default).posX ≤ boundsMax) :
    ((Finset.range 400).filter fun t =>
        (nodeAt (runTicks bank t ⟨nodes, boundsMin⟩) i).triggered = false ∧
        (nodeAt (runTicks bank (t + 1) ⟨nodes, boundsMin⟩) i).triggered
          = true).card = 1 := by
  have htraj := sweep_traj bank nodes h0
  apply flip_count_one
    (fun t => (nodeAt (runTicks bank t ⟨nodes, boundsMin⟩) i).triggered) 400
  · rw [((htraj 0 (by omega)).2.2 i hi).2.2]
    rfl
  · rw [((htraj 400 le_rfl).2.2 i hi).2.2]
    exact trigAt_covered _ hmin hmax
  · intro t htN htrue
    rw [((htraj t (by omega)).2.2 i hi).2.2] at htrue
    rw [((htraj (t + 1) (by omega)).2.2 i hi).2.2]
    exact trigAt_mono_succ _ _ htrue

/-- A one-node registry for the sweep witness: a pluck node at `x = 0`. -/
def c1nodes : List Node := [⟨.pluck, 0, false, 0, 1⟩]

/-- Witness for `sweep_triggers_once` on the one-node registry `c1nodes`. -/
theorem sweep_triggers_once_witness :
    (∀ n ∈ c1nodes, n.triggered = false) ∧ 0 < c1nodes.length ∧
    boundsMin ≤ (c1nodes.getD 0 default).posX ∧
    (c1nodes.getD 0 default).posX ≤ boundsMax ∧
    ((Finset.range 400).filter fun t =>
        (nodeAt (runTicks bank0 t ⟨c1nodes, boundsMin⟩) 0).triggered = false ∧
        (nodeAt (runTicks bank0 (t + 1) ⟨c1nodes, boundsMin⟩) 0).triggered
          = true).card = 1 :=
  ⟨by decide, by decide, by with_unfolding_all decide,
   by with_unfolding_all decide,
   sweep_triggers_once bank0 c1nodes (by decide) 0 (by decide)
     (by with_unfolding_all decide) (by with_unfolding_all decide)⟩

section ScenarioLemmas

lemma tick_true_wandX_of_gt (bank : SoundBank) (s : EngineState)
    (h : s.wandX + velocityPerTick > boundsMax) :
    (tick bank true s).1.wandX = boundsMin := by
  rw [tick_true_fst]
  have ha : (advance (decayAll s)).wandX = s.wandX + velocityPerTick := rfl
  rw [wrapStep_of_gt _ (by rw [ha]; exact h)]
  rfl

lemma getD_eq_get (l : List Node) (i : ℕ) (hi : i < l.length) :
    l.getD i default = l.get ⟨i, hi⟩ := by
  induction l generalizing i with
  | nil => exact absurd hi (Nat.not_lt_zero i)
  | cons a l ih =>
      cases i with
      | zero => rfl
      | succ j => exact ih j (Nat.lt_of_succ_lt_succ hi)

end ScenarioLemmas

set_option maxRecDepth 16000 in
/-- C6: in the spec's concrete scenario (bounds [-100, 100], velocity 0.5 per
frame, tolerance 1.0; a synth at x = -50, a pluck at x = 0, a kick at x = 50,
playhead started at -100 and running), the synth triggers at frame 99, the
pluck at frame 199, the kick at frame 299 with its scale impulse jumping to
1.2 (= 6/5), and at frame 401 the playhead wraps back to -100 with all three
triggered flags reset to false — matching the spec's approximate frame counts
100, 200, 300 and 400. -/
theorem three_node_scenario :
    (nodeAt (runTicks bank0 98 s6) 0).triggered = false ∧
    (nodeAt (runTicks bank0 99 s6) 0).triggered = true ∧
    (nodeAt (runTicks bank0 198 s6) 1).triggered = false ∧
    (nodeAt (runTicks bank0 199 s6) 1).triggered = true ∧
    (nodeAt (runTicks bank0 298 s6) 2).triggered = false ∧
    (nodeAt (runTicks bank0 299 s6) 2).triggered = true ∧
    (nodeAt (runTicks bank0 299 s6) 2).scaleImpulse = 6 / 5 ∧
    (runTicks bank0 401 s6).wandX = boundsMin ∧
    ∀ n ∈ (runTicks bank0 401 s6).soundNodes, n.triggered = false := by
  have h0 : ∀ n ∈ scenarioNodes, n.triggered = false := by decide
  have htraj := sweep_traj bank0 scenarioNodes h0
  have hs6 : (⟨scenarioNodes, boundsMin⟩ : EngineState) = s6 := rfl
  rw [hs6] at htraj
  have e0 : (scenarioNodes.getD 0 default).posX = -50 := rfl
  have e1 : (scenarioNodes.getD 1 default).posX = 0 := rfl
  have e2 : (scenarioNodes.getD 2 default).posX = 50 := rfl
  have f98 : (nodeAt (runTicks bank0 98 s6) 0).triggered = false := by
    rw [((htraj 98 (by omega)).2.2 0 (by decide)).2.2, e0]
    with_unfolding_all decide
  have f99 : (nodeAt (runTicks bank0 99 s6) 0).triggered = true := by
    rw [((htraj 99 (by omega)).2.2 0 (by decide)).2.2, e0]
    with_unfolding_all decide
  have f198 : (nodeAt (runTicks bank0 198 s6) 1).triggered = false := by
    rw [((htraj 198 (by omega)).2.2 1 (by decide)).2.2, e1]
    with_unfolding_all decide
  have f199 : (nodeAt (runTicks bank0 199 s6) 1).triggered = true := by
    rw [((htraj 199 (by omega)).2.2 1 (by decide)).2.2, e1]
    with_unfolding_all decide
  have f298 : (nodeAt (runTicks bank0 298 s6) 2).triggered = false := by
    rw [((htraj 298 (by omega)).2.2 2 (by decide)).2.2, e2]
    with_unfolding_all decide
  have f299 : (nodeAt (runTicks bank0 299 s6) 2).triggered = true := by
    rw [((htraj 299 (by omega)).2.2 2 (by decide)).2.2, e2]
    with_unfolding_all decide
  have hw298 : (runTicks bank0 298 s6).wandX = sweepPos 298 :=
    (htraj 298 (by omega)).1
  have hl298 : (runTicks bank0 298 s6).soundNodes.length = 3 :=
    (htraj 298 (by omega)).2.1
  have hno298 : ¬ (runTicks bank0 298 s6).wandX + velocityPerTick
      > boundsMax := by
    rw [hw298, ← sweepPos_succ]
    exact not_lt.2 (sweepPos_le 299 (by omega))
  have hty298 : (nodeAt (runTicks bank0 298 s6) 2).type = .kick :=
    ((htraj 298 (by omega)).2.2 2 (by decide)).1
  have hpx298 : (nodeAt (runTicks bank0 298 s6) 2).posX = 50 :=
    ((htraj 298 (by omega)).2.2 2 (by decide)).2.1
  have heq299 := tick_true_nodeAt_of_not_gt bank0 (runTicks bank0 298 s6) 2
    (by rw [hl298]; omega) hno298
  have hfires : fires ((runTicks bank0 298 s6).wandX + velocityPerTick)
      (decayNode (nodeAt (runTicks bank0 298 s6) 2)) = true := by
    simp only [fires, decayNode_triggered, decayNode_posX, f298, hpx298, hw298,
      ← sweepPos_succ]
    with_unfolding_all decide
  have hsc : (nodeAt (runTicks bank0 299 s6) 2).scaleImpulse = 6 / 5 := by
    rw [show runTicks bank0 299 s6
        = (tick bank0 true (runTicks bank0 298 s6)).1 from rfl]
    rw [heq299, detectStep_of_fires _ _ hfires]
    simp [triggerNode, decayNode_type, hty298]
  have hw400 : (runTicks bank0 400 s6).wandX = sweepPos 400 :=
    (htraj 400 le_rfl).1
  have hl400 : (runTicks bank0 400 s6).soundNodes.length = 3 :=
    (htraj 400 le_rfl).2.1
  have hsp400 : sweepPos 400 = 100 := by
    rw [sweepPos, boundsMin_eq, velocityPerTick_eq]
    norm_num
  have hgt400 : (runTicks bank0 400 s6).wandX + velocityPerTick > boundsMax := by
    rw [hw400, hsp400, velocityPerTick_eq, boundsMax_eq]
    norm_num
  have h401 : runTicks bank0 401 s6
      = (tick bank0 true (runTicks bank0 400 s6)).1 := rfl
  have hwx401 : (runTicks bank0 401 s6).wandX = boundsMin := by
    rw [h401]
    exact tick_true_wandX_of_gt bank0 _ hgt400
  have hflags : ∀ i : ℕ, i < 3 →
      (nodeAt (runTicks bank0 401 s6) i).triggered = false := by
    intro i hi
    have hi' : i < (runTicks bank0 400 s6).soundNodes.length := by
      rw [hl400]; exact hi
    have heqi := tick_true_nodeAt_of_gt bank0 (runTicks bank0 400 s6) i hi' hgt400
    have hpx : (nodeAt (runTicks bank0 400 s6) i).posX
        = (scenarioNodes.getD i default).posX :=
      ((htraj 400 le_rfl).2.2 i hi).2.1
    rw [h401, heqi, detectStep_triggered]
    dsimp only
    rw [Bool.false_or, decayNode_posX, hpx]
    interval_cases i <;> with_unfolding_all decide
  have hmem : ∀ n ∈ (runTicks bank0 401 s6).soundNodes, n.triggered = false := by
    intro n hn
    obtain ⟨⟨i, hilen⟩, rfl⟩ := List.mem_iff_get.1 hn
    have hl401 : (runTicks bank0 401 s6).soundNodes.length = 3 := by
      rw [h401, tick_true_length, hl400]
    have hi3 : i < 3 := by rw [← hl401]; exact hilen
    have hfl := hflags i hi3
    simp only [nodeAt] at hfl
    rw [getD_eq_get _ i hilen] at hfl
    exact hfl
  exact ⟨f98, f99, f198, f199, f298, f299, hsc, hwx401, hmem⟩

end MelodySculptor
